import Mathlib

/-!
# The `debug` package: `TykSim.Start` and `LogAsJSON`

A shallow embedding of `debug.go`.

* Go `[]byte` values, and Go strings whose bytes matter (the response body, the
  text handed to `fmt.Print`, the message of a log entry), are lists of byte
  values (`Bytes`).  Go strings that are only compared or concatenated (method,
  path, query, the caller's log label) are Lean strings.
* A Go pointer that may be `nil` is an `Option`; dereferencing `nil` is the
  run-time abort `Abort.nilDeref`.
* Code of other packages is a field of `Env`: `url.Parse`, `client.Do`,
  `json.Indent`.  `json.MarshalIndent` is an argument of `LogAsJSON`.
* A hook is a Go function over `(rw, req)` (or `(rw, res, req)`): it observes and
  mutates what its arguments point to.  Here it is a function from the values
  pointed to, to their values on return.  A hook that panics, or that reaches the
  `TykSim` other than through its arguments, is outside the model.
* `Start` returns a `Run`: the observable events in the order they happen (hook
  invocations with their arguments, the outbound call with its result, what is
  printed), the final values, and the abort if there was one.
-/

namespace Debug

/-! ## Bytes and Go string conversions -/

/-- Contents of a Go byte slice or string: one number below 256 per byte. -/
abbrev Bytes := List Nat

/-- UTF-8 encoding of a code point (`utf8.AppendRune` on a valid rune). -/
def utf8EncodeRune (r : Nat) : Bytes :=
  if r < 0x80 then [r]
  else if r < 0x800 then [0xC0 + r / 64, 0x80 + r % 64]
  else if r < 0x10000 then [0xE0 + r / 4096, 0x80 + r / 64 % 64, 0x80 + r % 64]
  else [0xF0 + r / 262144, 0x80 + r / 4096 % 64, 0x80 + r / 64 % 64, 0x80 + r % 64]

/-- Bytes of a Go string literal (Go source text is UTF-8). -/
def goString (s : String) : Bytes :=
  s.toList.flatMap (fun c => utf8EncodeRune c.toNat)

/-- The Go conversion `string(i)` of an integer `i`: the UTF-8 representation of
the code point `i`, and the replacement character U+FFFD when `i` is not a valid
code point. -/
def stringOfInt (i : Int) : Bytes :=
  if 0 ≤ i ∧ i ≤ 0x10FFFF ∧ ¬ (0xD800 ≤ i ∧ i ≤ 0xDFFF) then utf8EncodeRune i.toNat
  else [0xEF, 0xBF, 0xBD]

/-! ## Data model -/

/-- The fields of `url.URL`. -/
structure URL where
  Scheme : String
  Opaque : String
  User : Option String
  Host : String
  Path : String
  RawPath : String
  ForceQuery : Bool
  RawQuery : String
  Fragment : String
  deriving DecidableEq, Repr

/-- The part `apidef.APIDefinition.Proxy` that `Start` reads. -/
structure ProxyConfig where
  TargetURL : String
  deriving DecidableEq, Repr

/-- The part of `apidef.APIDefinition` that `Start` reads. -/
structure APIDefinition where
  Protocol : String
  Proxy : ProxyConfig
  deriving DecidableEq, Repr

/-- The value behind `*http.Request`.  `Definition` is the API definition held in the
request's context (`ctx.SetDefinition` / `ctx.GetDefinition`), `none` when the
context holds none. -/
structure Request where
  Method : String
  URL : Option URL
  Header : List (String × String)
  Definition : Option APIDefinition
  deriving DecidableEq, Repr

/-- The value behind `*http.Response`; `Body` is what `ioutil.ReadAll(res.Body)` yields. -/
structure Response where
  StatusCode : Nat
  Header : List (String × String)
  Body : Bytes
  deriving DecidableEq, Repr

/-- The state of the `httptest.ResponseRecorder` behind `sim.ResponseWriter`. -/
structure ResponseRecorder where
  Code : Nat
  HeaderMap : List (String × String)
  Body : Bytes
  deriving DecidableEq, Repr

/-- A hook of type `func(rw http.ResponseWriter, req *http.Request)`. -/
abbrev RequestHook := ResponseRecorder → Request → ResponseRecorder × Request

/-- A hook of type `func(rw http.ResponseWriter, res *http.Response, req *http.Request)`. -/
abbrev ResponseHook :=
  ResponseRecorder → Option Response → Request → ResponseRecorder × Option Response × Request

/-- The struct `TykSim.MiddlewareHooks`: six slots, `none` for a nil function. -/
structure MiddlewareHooks where
  Pre : Option RequestHook
  PostKeyAuth : Option RequestHook
  TykRequestMw : Option RequestHook
  Post : Option RequestHook
  TykResponseMw : Option ResponseHook
  Response : Option ResponseHook

/-- The struct `TykSim`. -/
structure TykSim where
  Request : Request
  Response : Option Response
  ResponseWriter : ResponseRecorder
  MiddlewareHooks : MiddlewareHooks

/-- Names of the six hook slots. -/
inductive Slot where
  | Pre | PostKeyAuth | TykRequestMw | Post | TykResponseMw | Response
  deriving DecidableEq, Repr

/-- Result of `client.Do`: a response, or a non-nil error. -/
inductive DoResult where
  | ok (res : Response)
  | error (msg : String)
  deriving DecidableEq, Repr

/-- What a run of `Start` does that can be observed from outside. -/
inductive Event where
  /-- a request-stage hook is invoked with `(rw, req)` -/
  | requestHook (slot : Slot) (rw : ResponseRecorder) (req : Request)
  /-- a response-stage hook is invoked with `(rw, res, req)` -/
  | responseHook (slot : Slot) (rw : ResponseRecorder) (res : Option Response) (req : Request)
  /-- the call `client.Do(req)`, which returns `result` -/
  | outbound (req : Request) (result : DoResult)
  /-- the call `fmt.Print(banner, text)` -/
  | print (banner : Bytes) (text : Bytes)
  deriving DecidableEq, Repr

/-- An event without its arguments. -/
inductive Label where
  | hook (slot : Slot)
  | outbound
  | print
  deriving DecidableEq, Repr

def Event.label : Event → Label
  | .requestHook slot _ _ => .hook slot
  | .responseHook slot _ _ _ => .hook slot
  | .outbound _ _ => .outbound
  | .print _ _ => .print

/-- How a run of `Start` ends early. -/
inductive Abort where
  /-- a nil pointer is dereferenced at this line of `debug.go` -/
  | nilDeref (line : Nat)
  /-- the statement `panic(err)` with the error of `client.Do` -/
  | clientError (msg : String)
  deriving DecidableEq, Repr

/-- The code of other packages that `Start` calls. -/
structure Env where
  /-- the function `url.Parse`: `none` when it returns `(nil, err)` -/
  urlParse : String → Option URL
  /-- the method `Do` of `&http.Client{}` -/
  clientDo : Request → DoResult
  /-- the call `json.Indent(&buf, src, pfx, indent)`: the bytes written to `buf`, `none` on error -/
  jsonIndent : Bytes → String → String → Option Bytes

/-- The method `Request.Clone`: a deep copy, so the same value behind a new pointer. -/
def Request.Clone (r : Request) : Request := r

/-- The working values while `Start` runs. -/
structure St where
  trace : List Event
  rw : ResponseRecorder
  req : Request

/-- Outcome of a run of `Start`. -/
structure Run where
  trace : List Event
  rw : ResponseRecorder
  req : Request
  res : Option Response
  abort : Option Abort

/-! ## `TykSim.Start` -/

/-- The statement `if hook != nil { hook(sim.ResponseWriter, sim.Request) }`. -/
def callRequestHook (slot : Slot) (hook : Option RequestHook) (s : St) : St :=
  match hook with
  | none => s
  | some f =>
    { trace := s.trace ++ [Event.requestHook slot s.rw s.req]
      rw := (f s.rw s.req).1
      req := (f s.rw s.req).2 }

/-- Lines 57-75: the four request-stage hooks. -/
def runRequestHooks (sim : TykSim) : St :=
  callRequestHook .Post sim.MiddlewareHooks.Post
    (callRequestHook .TykRequestMw sim.MiddlewareHooks.TykRequestMw
      (callRequestHook .PostKeyAuth sim.MiddlewareHooks.PostKeyAuth
        (callRequestHook .Pre sim.MiddlewareHooks.Pre
          { trace := [], rw := sim.ResponseWriter, req := sim.Request })))

/-- Lines 80-87: `newURL` as assigned to `sim.Request.URL`.  `parsed` is the pointer
`url.Parse` returned (its error is dropped), `orig` is `origReq.URL`, `work` is
`sim.Request.URL`. -/
def resolveURL (parsed orig work : Option URL) : Except Abort (Option URL) :=
  match orig, work with
  | none, _ => .error (.nilDeref 81)
  | some _, none => .error (.nilDeref 81)
  | some o, some w =>
    let afterPath : Except Abort (Option URL) :=
      if o.Path ≠ w.Path then
        match parsed with
        | none => .error (.nilDeref 82)
        | some n => .ok (some { n with Path := w.Path })
      else .ok parsed
    match afterPath with
    | .error a => .error a
    | .ok newURL =>
      if o.RawQuery ≠ w.RawQuery then
        match newURL with
        | none => .error (.nilDeref 85)
        | some n => .ok (some { n with RawQuery := w.RawQuery })
      else .ok newURL

/-- The cap of the response-body dump (`var trim int = 1000`). -/
def trim : Nat := 1000

/-- Lines 107-112: `output` before the cap: the body re-indented with tabs, or the
body as read when `json.Indent` returns an error. -/
def renderBody (env : Env) (bodyBytes : Bytes) : Bytes :=
  match env.jsonIndent bodyBytes "" "\t" with
  | none => bodyBytes
  | some prettyJSON => prettyJSON

/-- Lines 113-116: the cap on `output`. -/
def capOutput (output : Bytes) : Bytes :=
  if output.length > trim then
    output.take trim ++ (goString "\n...(trimmed at " ++ stringOfInt trim ++ goString " bytes)")
  else output

/-- Lines 105-116: the text printed after the banner, for the body read. -/
def dumpOutput (env : Env) (bodyBytes : Bytes) : Bytes :=
  capOutput (renderBody env bodyBytes)

/-- The method `(sim *TykSim) Start()`. -/
def Start (env : Env) (sim : TykSim) : Run :=
  let origReq := sim.Request.Clone
  let s := runRequestHooks sim
  match s.req.Definition with
  | none => { trace := s.trace, rw := s.rw, req := s.req, res := sim.Response,
              abort := some (.nilDeref 79) }
  | some apidef =>
    let req1 := { s.req with Method := apidef.Protocol }
    match resolveURL (env.urlParse apidef.Proxy.TargetURL) origReq.URL req1.URL with
    | .error a => { trace := s.trace, rw := s.rw, req := req1, res := sim.Response,
                    abort := some a }
    | .ok newURL =>
      let req2 := { req1 with URL := newURL }
      match env.clientDo req2 with
      | .error msg =>
        { trace := s.trace ++ [Event.outbound req2 (.error msg)], rw := s.rw, req := req2,
          res := sim.Response, abort := some (.clientError msg) }
      | .ok res =>
        let t1 := s.trace ++ [Event.outbound req2 (.ok res)]
        let printed := Event.print (goString "---- Response Body ----\n") (dumpOutput env res.Body)
        match sim.MiddlewareHooks.Response with
        | none =>
          { trace := t1 ++ [printed], rw := s.rw, req := req2, res := sim.Response,
            abort := none }
        | some f =>
          { trace := t1 ++ [Event.responseHook .Response s.rw sim.Response req2] ++ [printed]
            rw := (f s.rw sim.Response req2).1
            req := (f s.rw sim.Response req2).2.2
            res := (f s.rw sim.Response req2).2.1
            abort := none }

/-! ## `LogAsJSON` -/

/-- One argument of a `logger.Info` call. -/
inductive LogArg where
  | str (s : String)
  | bytes (b : Bytes)
  | err (e : String)
  deriving DecidableEq, Repr

/-- One `logger.Info(args...)` call: its arguments in order. -/
abbrev LogEntry := List LogArg

/-- The function `LogAsJSON(prefix, v)`: the `logger.Info` calls it makes, in order.
`marshalIndent v pfx indent` stands for `json.MarshalIndent`: the pair `(b, err)` it
returns, `err = none` for a nil error. -/
def LogAsJSON {V : Type} (marshalIndent : V → String → String → Bytes × Option String)
    (pfx : String) (v : V) : List LogEntry :=
  let b := (marshalIndent v "" "  ").1
  let err := (marshalIndent v "" "  ").2
  let onErr : List LogEntry :=
    match err with
    | some e => [[.str pfx, .str "Error marshalling JSON:", .err e]]
    | none => []
  let b := if b.length > 300 then b.take 300 ++ goString "\n...(trimmed at 300 bytes)" else b
  if b.length > 0 then onErr ++ [[.str (pfx ++ "\n"), .bytes b]]
  else onErr ++ [[.str pfx, .str "Empty JSON"]]

/-! ## `NewTykSim` -/

/-- The code of other packages that `NewTykSim` calls. -/
structure LoadEnv where
  /-- the function `ioutil.ReadFile` -/
  readFile : String → Except String Bytes
  /-- decoding of the wrapper document: the value under the key `api_definition` -/
  decode : Bytes → Except String APIDefinition
  /-- the call `http.NewRequest(method, url, nil)` -/
  newRequest : String → String → Except String Request

/-- The function `apiDefLoadFile`. -/
def apiDefLoadFile (env : LoadEnv) (path : String) : Except String APIDefinition :=
  match env.readFile path with
  | .error e => .error e
  | .ok f =>
    match env.decode f with
    | .error e => .error e
    | .ok d => .ok d

/-- The function `NewTykSim`; `.error e` is `panic(e)`. -/
def NewTykSim (env : LoadEnv) (inboundUrl apiFilePath : String) : Except String TykSim :=
  match apiDefLoadFile env apiFilePath with
  | .error e => .error e
  | .ok apiDef =>
    match env.newRequest "GET" inboundUrl with
    | .error e => .error e
    | .ok inReq =>
      .ok { Request := { inReq with Definition := some apiDef }
            Response := none
            ResponseWriter := { Code := 200, HeaderMap := [], Body := [] }
            MiddlewareHooks := { Pre := none, PostKeyAuth := none, TykRequestMw := none,
                                 Post := none, TykResponseMw := none, Response := none } }

/-! ## Reading a run -/

/-- The requests handed to `client.Do` during a run, in order. -/
def outboundRequests (r : Run) : List Request :=
  r.trace.filterMap fun e =>
    match e with
    | .outbound req _ => some req
    | _ => none

/-- The operands of the `fmt.Print` calls of a run, in order. -/
def printed (r : Run) : List (Bytes × Bytes) :=
  r.trace.filterMap fun e =>
    match e with
    | .print banner text => some (banner, text)
    | _ => none

/-- The events of one slot: its label when the slot is populated, nothing otherwise. -/
def slotLabel (slot : Slot) (populated : Bool) : List Label :=
  if populated then [Label.hook slot] else []

/-- The order of events the specification gives for a run whose outbound call
succeeds: pre, post-key-auth, gateway-request, post, the outbound call, response,
then the dump. -/
def expectedLabels (h : MiddlewareHooks) : List Label :=
  slotLabel .Pre h.Pre.isSome ++ slotLabel .PostKeyAuth h.PostKeyAuth.isSome
    ++ slotLabel .TykRequestMw h.TykRequestMw.isSome ++ slotLabel .Post h.Post.isSome
    ++ [Label.outbound] ++ slotLabel .Response h.Response.isSome ++ [Label.print]

/-- The events of lines 96-99 when the hook is handed `rw` and `req`. -/
def responseStage (sim : TykSim) (rw : ResponseRecorder) (req : Request) : List Event :=
  match sim.MiddlewareHooks.Response with
  | none => []
  | some _ => [Event.responseHook .Response rw sim.Response req]

/-- The banner of the dump. -/
def banner : Bytes := goString "---- Response Body ----\n"

/-- The trailer `Start` appends: the text between `trimmed at` and `bytes` is the two
bytes `CF A8`, the UTF-8 form of U+03E8. -/
def startTrailer : Bytes := goString "\n...(trimmed at " ++ [0xCF, 0xA8] ++ goString " bytes)"

/-! ## Concrete inputs -/

def backendURL : URL :=
  { Scheme := "http", Opaque := "", User := none, Host := "backend.internal", Path := "/",
    RawPath := "", ForceQuery := false, RawQuery := "", Fragment := "" }

def inboundURL : URL :=
  { Scheme := "http", Opaque := "", User := none, Host := "localhost", Path := "/foo",
    RawPath := "", ForceQuery := false, RawQuery := "x=1", Fragment := "" }

def demoDefinition : APIDefinition :=
  { Protocol := "https", Proxy := { TargetURL := "http://backend.internal/" } }

/-- A definition whose target `url.Parse` rejects (no scheme before the colon). -/
def badDefinition : APIDefinition :=
  { Protocol := "https", Proxy := { TargetURL := "://backend.internal/" } }

def demoResponse : Response :=
  { StatusCode := 200, Header := [], Body := goString "not json" }

/-- An environment: one target parses, the client answers every request that has a
URL and reports an error for one that has none, and re-indenting succeeds on `[]` only. -/
def demoEnv : Env :=
  { urlParse := fun s => if s = "http://backend.internal/" then some backendURL else none
    clientDo := fun req =>
      match req.URL with
      | none => .error "http: nil Request.URL"
      | some _ => .ok demoResponse
    jsonIndent := fun src _ _ => if src = goString "[]" then some (goString "[]") else none }

def demoLoadEnv : LoadEnv :=
  { readFile := fun _ => .ok []
    decode := fun _ => .ok demoDefinition
    newRequest := fun method url =>
      if url = "http://localhost/foo?x=1" then
        .ok { Method := method, URL := some inboundURL, Header := [], Definition := none }
      else .error "parse error" }

def noHooks : MiddlewareHooks :=
  { Pre := none, PostKeyAuth := none, TykRequestMw := none, Post := none,
    TykResponseMw := none, Response := none }

/-- The simulation `NewTykSim("http://localhost/foo?x=1", "api.json")` builds. -/
def demoSim : TykSim :=
  { Request := { Method := "GET", URL := some inboundURL, Header := [],
                 Definition := some demoDefinition }
    Response := none
    ResponseWriter := { Code := 200, HeaderMap := [], Body := [] }
    MiddlewareHooks := noHooks }

/-- A hook that sets the path of the request to `/bar`. -/
def setPathBar : RequestHook := fun rw req =>
  (rw, { req with URL := req.URL.map fun u => { u with Path := "/bar" } })

/-- A hook that sets the method of the request to `POST`. -/
def setMethodPost : RequestHook := fun rw req => (rw, { req with Method := "POST" })

/-- A response-stage hook that changes nothing. -/
def idResponseHook : ResponseHook := fun rw res req => (rw, res, req)

/-- The simulation `demoSim` with a `Pre` hook that sets the path to `/bar`. -/
def barSim : TykSim := { demoSim with MiddlewareHooks := { noHooks with Pre := some setPathBar } }

/-- The simulation `demoSim` with all six slots populated. -/
def fullSim : TykSim :=
  { demoSim with
    MiddlewareHooks := { Pre := some setPathBar, PostKeyAuth := some setMethodPost,
                         TykRequestMw := some setMethodPost, Post := some setMethodPost,
                         TykResponseMw := some idResponseHook,
                         Response := some idResponseHook } }

/-- The simulation `demoSim` bound to `badDefinition`. -/
def badSim : TykSim :=
  { demoSim with Request := { demoSim.Request with Definition := some badDefinition } }

/-- The request `demoSim` hands to `client.Do`. -/
def demoOutbound : Request :=
  { Method := "https", URL := some backendURL, Header := [], Definition := some demoDefinition }

/-- The request `fullSim` and `barSim` hand to `client.Do`. -/
def barOutbound : Request :=
  { demoOutbound with URL := some { backendURL with Path := "/bar" } }

/-- The function `json.MarshalIndent` on a value it cannot marshal: `(nil, err)`. -/
def failingMarshal : Unit → String → String → Bytes × Option String :=
  fun _ _ _ => ([], some "json: unsupported type")

/-- The function `json.MarshalIndent` on the integer 7. -/
def sevenMarshal : Unit → String → String → Bytes × Option String :=
  fun _ _ _ => (goString "7", none)

/-- The function `json.MarshalIndent` on a value whose indented form has 301 bytes. -/
def longMarshal : Unit → String → String → Bytes × Option String :=
  fun _ _ _ => (List.replicate 301 120, none)

/-- A response whose body is 1001 bytes, each the letter `x`. -/
def bigResponse : Response :=
  { StatusCode := 200, Header := [], Body := List.replicate 1001 120 }

/-- An environment whose client answers `bigResponse`; re-indenting always fails. -/
def bigEnv : Env :=
  { urlParse := demoEnv.urlParse
    clientDo := fun _ => .ok bigResponse
    jsonIndent := fun _ _ _ => none }

/-- A response whose body is 500 bytes of invalid JSON, each the letter `x`. -/
def invalidResponse : Response :=
  { StatusCode := 200, Header := [], Body := List.replicate 500 120 }

/-- An environment whose client answers `invalidResponse`; re-indenting always fails. -/
def invalidEnv : Env :=
  { urlParse := demoEnv.urlParse
    clientDo := fun _ => .ok invalidResponse
    jsonIndent := fun _ _ _ => none }

/-- The simulation `demoSim` with the `Response` slot populated. -/
def respSim : TykSim :=
  { demoSim with MiddlewareHooks := { noHooks with Response := some idResponseHook } }

/-! ## The request-stage hooks -/

theorem callRequestHook_labels (slot : Slot) (hook : Option RequestHook) (s : St) :
    (callRequestHook slot hook s).trace.map Event.label
      = s.trace.map Event.label ++ slotLabel slot hook.isSome := by
  cases hook <;> simp [callRequestHook, slotLabel, Event.label]

theorem runRequestHooks_labels (sim : TykSim) :
    (runRequestHooks sim).trace.map Event.label
      = slotLabel .Pre sim.MiddlewareHooks.Pre.isSome
        ++ slotLabel .PostKeyAuth sim.MiddlewareHooks.PostKeyAuth.isSome
        ++ slotLabel .TykRequestMw sim.MiddlewareHooks.TykRequestMw.isSome
        ++ slotLabel .Post sim.MiddlewareHooks.Post.isSome := by
  simp [runRequestHooks, callRequestHook_labels]

theorem callRequestHook_mem (slot : Slot) (hook : Option RequestHook) (s : St) (e : Event)
    (h : e ∈ (callRequestHook slot hook s).trace) :
    e ∈ s.trace ∨ ∃ rw req, e = Event.requestHook slot rw req := by
  cases hook with
  | none => exact Or.inl h
  | some f =>
    simp only [callRequestHook, List.mem_append, List.mem_singleton] at h
    rcases h with h | h
    · exact Or.inl h
    · exact Or.inr ⟨_, _, h⟩

/-- Every event of the request stage is the invocation of a request-stage hook. -/
theorem runRequestHooks_mem (sim : TykSim) (e : Event) (h : e ∈ (runRequestHooks sim).trace) :
    ∃ slot rw req, e = Event.requestHook slot rw req ∧ slot ≠ Slot.TykResponseMw := by
  unfold runRequestHooks at h
  rcases callRequestHook_mem _ _ _ _ h with h | ⟨rw, req, h⟩
  · rcases callRequestHook_mem _ _ _ _ h with h | ⟨rw, req, h⟩
    · rcases callRequestHook_mem _ _ _ _ h with h | ⟨rw, req, h⟩
      · rcases callRequestHook_mem _ _ _ _ h with h | ⟨rw, req, h⟩
        · simp at h
        · exact ⟨_, _, _, h, by decide⟩
      · exact ⟨_, _, _, h, by decide⟩
    · exact ⟨_, _, _, h, by decide⟩
  · exact ⟨_, _, _, h, by decide⟩

theorem runRequestHooks_no_outbound (sim : TykSim) (req : Request) (r : DoResult) :
    Event.outbound req r ∉ (runRequestHooks sim).trace := by
  intro h
  obtain ⟨_, _, _, he, _⟩ := runRequestHooks_mem sim _ h
  cases he

/-- A reading of the trace that skips request-stage hooks finds nothing in the request stage. -/
theorem runRequestHooks_filterMap {α : Type} (f : Event → Option α) (sim : TykSim)
    (hf : ∀ slot rw req, f (Event.requestHook slot rw req) = none) :
    (runRequestHooks sim).trace.filterMap f = [] := by
  rw [List.filterMap_eq_nil_iff]
  intro e he
  obtain ⟨slot, rw, req, rfl, _⟩ := runRequestHooks_mem sim e he
  exact hf slot rw req

/-! ## The shape of a run -/

/-- Shape of a run in which `client.Do` returned a response. -/
theorem Start_of_ok (env : Env) (sim : TykSim) (req : Request) (res : Response)
    (h : Event.outbound req (.ok res) ∈ (Start env sim).trace) :
    (Start env sim).abort = none ∧
    (Start env sim).trace
      = (runRequestHooks sim).trace ++ [Event.outbound req (.ok res)]
        ++ responseStage sim (runRequestHooks sim).rw req
        ++ [Event.print banner (dumpOutput env res.Body)] := by
  have hno := runRequestHooks_no_outbound sim req (.ok res)
  unfold Start at h ⊢
  simp only at h ⊢
  split at h
  · exact absurd h hno
  · split at h
    · exact absurd h hno
    · split at h
      · simp [hno] at h
      · split at h
        · simp [hno] at h
          obtain ⟨h1, h2⟩ := h
          subst h1 h2
          simp [responseStage, banner, *]
        · simp [hno] at h
          obtain ⟨h1, h2⟩ := h
          subst h1 h2
          simp [responseStage, banner, *]

/-- Every event of a run is a request-stage hook (never `TykResponseMw`), the outbound
call, the `Response` hook handed `sim.Response`, or the dump. -/
theorem Start_mem (env : Env) (sim : TykSim) (e : Event) (h : e ∈ (Start env sim).trace) :
    (∃ slot rw req, e = Event.requestHook slot rw req ∧ slot ≠ Slot.TykResponseMw)
    ∨ (∃ req r, e = Event.outbound req r)
    ∨ (∃ rw req, e = Event.responseHook .Response rw sim.Response req)
    ∨ (∃ b t, e = Event.print b t) := by
  unfold Start at h
  simp only at h
  split at h
  · exact Or.inl (runRequestHooks_mem sim e h)
  · split at h
    · exact Or.inl (runRequestHooks_mem sim e h)
    · split at h
      · simp only [List.mem_append, List.mem_singleton] at h
        rcases h with h | h
        · exact Or.inl (runRequestHooks_mem sim e h)
        · exact Or.inr (Or.inl ⟨_, _, h⟩)
      · split at h
        · simp only [List.mem_append, List.mem_singleton] at h
          rcases h with (h | h) | h
          · exact Or.inl (runRequestHooks_mem sim e h)
          · exact Or.inr (Or.inl ⟨_, _, h⟩)
          · exact Or.inr (Or.inr (Or.inr ⟨_, _, h⟩))
        · simp only [List.mem_append, List.mem_singleton] at h
          rcases h with ((h | h) | h) | h
          · exact Or.inl (runRequestHooks_mem sim e h)
          · exact Or.inr (Or.inl ⟨_, _, h⟩)
          · exact Or.inr (Or.inr (Or.inl ⟨_, _, h⟩))
          · exact Or.inr (Or.inr (Or.inr ⟨_, _, h⟩))

/-- The run once the resolve step has produced `newURL`: `client.Do` is called on the
rewritten request, exactly once, and an error it returns is the abort. -/
theorem Start_of_resolved (env : Env) (sim : TykSim) (d : APIDefinition) (newURL : Option URL)
    (hd : (runRequestHooks sim).req.Definition = some d)
    (hr : resolveURL (env.urlParse d.Proxy.TargetURL) sim.Request.Clone.URL
            (runRequestHooks sim).req.URL = .ok newURL) :
    outboundRequests (Start env sim)
      = [{ (runRequestHooks sim).req with Method := d.Protocol, URL := newURL }]
    ∧ (Start env sim).abort
      = (match env.clientDo { (runRequestHooks sim).req with Method := d.Protocol, URL := newURL } with
         | .ok _ => none
         | .error msg => some (.clientError msg)) := by
  have hnil := runRequestHooks_filterMap
    (fun e => match e with
      | .outbound req _ => some req
      | _ => none) sim (by intros; rfl)
  unfold outboundRequests Start
  simp only [hd, hr]
  split
  · simp [hnil, *]
  · split <;> simp [hnil, *]

/-- The run when the resolve step dereferences a nil pointer: no call, no dump. -/
theorem Start_of_unresolved (env : Env) (sim : TykSim) (d : APIDefinition) (a : Abort)
    (hd : (runRequestHooks sim).req.Definition = some d)
    (hr : resolveURL (env.urlParse d.Proxy.TargetURL) sim.Request.Clone.URL
            (runRequestHooks sim).req.URL = .error a) :
    (Start env sim).abort = some a ∧ outboundRequests (Start env sim) = []
      ∧ printed (Start env sim) = [] := by
  have hnil := runRequestHooks_filterMap
    (fun e => match e with
      | .outbound req _ => some req
      | _ => none) sim (by intros; rfl)
  have hnil2 := runRequestHooks_filterMap
    (fun e => match e with
      | .print b t => some (b, t)
      | _ => none) sim (by intros; rfl)
  unfold outboundRequests printed Start
  simp only [hd, hr]
  exact ⟨trivial, hnil, hnil2⟩

/-- The resolve step when the target parses and both URLs are present. -/
theorem resolveURL_parsed (t o w : URL) :
    resolveURL (some t) (some o) (some w)
      = .ok (some { t with Path := if w.Path ≠ o.Path then w.Path else t.Path,
                           RawQuery := if w.RawQuery ≠ o.RawQuery then w.RawQuery
                                       else t.RawQuery }) := by
  unfold resolveURL
  by_cases hp : o.Path = w.Path <;> by_cases hq : o.RawQuery = w.RawQuery <;>
    simp [hp, hq, Ne.symm, eq_comm]

/-- The resolve step when the target does not parse and both URLs are present. -/
theorem resolveURL_unparsed (o w : URL) :
    resolveURL none (some o) (some w)
      = if o.Path ≠ w.Path then .error (.nilDeref 82)
        else if o.RawQuery ≠ w.RawQuery then .error (.nilDeref 85)
        else .ok none := by
  unfold resolveURL
  by_cases hp : o.Path = w.Path <;> by_cases hq : o.RawQuery = w.RawQuery <;> simp [hp, hq]

theorem stringOfInt_trim : stringOfInt trim = [0xCF, 0xA8] := by decide

/-- What a run in which `client.Do` returned a response prints. -/
theorem printed_of_ok (env : Env) (sim : TykSim) (req : Request) (res : Response)
    (h : Event.outbound req (.ok res) ∈ (Start env sim).trace) :
    printed (Start env sim) = [(banner, dumpOutput env res.Body)] := by
  have hnil := runRequestHooks_filterMap
    (fun e => match e with
      | .print b t => some (b, t)
      | _ => none) sim (by intros; rfl)
  unfold printed
  rw [(Start_of_ok env sim req res h).2]
  simp only [List.filterMap_append, hnil, responseStage]
  cases sim.MiddlewareHooks.Response <;> simp

/-! ## The claims -/

/-- C1: in every run of `Start` whose outbound call succeeds, the events are exactly the
populated hooks among Pre, PostKeyAuth, TykRequestMw, Post in that order, then one
outbound call, then the Response hook if populated, then the dump of the body; an unset
slot contributes no event, and the run does not abort. -/
theorem Start_event_order (env : Env) (sim : TykSim)
    (h : ∃ req res, Event.outbound req (.ok res) ∈ (Start env sim).trace) :
    (Start env sim).trace.map Event.label = expectedLabels sim.MiddlewareHooks
      ∧ (Start env sim).abort = none := by
  obtain ⟨req, res, h⟩ := h
  obtain ⟨hab, htr⟩ := Start_of_ok env sim req res h
  refine ⟨?_, hab⟩
  rw [htr]
  simp only [List.map_append, runRequestHooks_labels, expectedLabels, responseStage]
  cases sim.MiddlewareHooks.Response <;> simp [slotLabel, Event.label]

theorem Start_event_order_witness :
    ((∃ req res, Event.outbound req (.ok res) ∈ (Start demoEnv demoSim).trace)
      ∧ (Start demoEnv demoSim).trace.map Event.label = [.outbound, .print]
      ∧ (Start demoEnv demoSim).abort = none)
    ∧ ((∃ req res, Event.outbound req (.ok res) ∈ (Start demoEnv fullSim).trace)
      ∧ (Start demoEnv fullSim).trace.map Event.label
          = [.hook .Pre, .hook .PostKeyAuth, .hook .TykRequestMw, .hook .Post, .outbound,
             .hook .Response, .print]
      ∧ (Start demoEnv fullSim).abort = none) :=
  ⟨⟨⟨demoOutbound, demoResponse, by decide⟩,
      Start_event_order demoEnv demoSim ⟨demoOutbound, demoResponse, by decide⟩⟩,
   ⟨⟨barOutbound, demoResponse, by decide⟩,
      Start_event_order demoEnv fullSim ⟨barOutbound, demoResponse, by decide⟩⟩⟩

/-- C2: when the target URL of the definition parses, the URL of the request handed to the
outbound call is the target URL with its path replaced by the working request's path
exactly when that path differs from the snapshot's path, and its query replaced by the
working request's query exactly when that query differs from the snapshot's query; every
other field (scheme and host among them) is the target's. -/
theorem Start_outbound_url (env : Env) (sim : TykSim) (d : APIDefinition) (t o w : URL)
    (hd : (runRequestHooks sim).req.Definition = some d)
    (ht : env.urlParse d.Proxy.TargetURL = some t)
    (ho : sim.Request.Clone.URL = some o)
    (hw : (runRequestHooks sim).req.URL = some w) :
    (outboundRequests (Start env sim)).map (fun r => r.URL)
      = [some { t with Path := if w.Path ≠ o.Path then w.Path else t.Path,
                       RawQuery := if w.RawQuery ≠ o.RawQuery then w.RawQuery
                                   else t.RawQuery }] := by
  have hr := resolveURL_parsed t o w
  rw [← ht, ← ho, ← hw] at hr
  rw [(Start_of_resolved env sim d _ hd hr).1]
  rfl

theorem Start_outbound_url_witness :
    (outboundRequests (Start demoEnv demoSim)).map (fun r => r.URL) = [some backendURL]
    ∧ (outboundRequests (Start demoEnv barSim)).map (fun r => r.URL)
        = [some { backendURL with Path := "/bar" }] :=
  ⟨Start_outbound_url demoEnv demoSim demoDefinition backendURL inboundURL inboundURL
      rfl rfl rfl rfl,
   Start_outbound_url demoEnv barSim demoDefinition backendURL inboundURL
      { inboundURL with Path := "/bar" } rfl rfl rfl rfl⟩

/-- C3: the method of every request handed to the outbound call is the Protocol field of
the definition bound to the request, whatever the inbound method was and whatever method
the hooks set; and whenever the resolve step yields a URL pointer, exactly one request is
handed to the outbound call, with that method. -/
theorem Start_outbound_method (env : Env) (sim : TykSim) (d : APIDefinition)
    (hd : (runRequestHooks sim).req.Definition = some d) :
    (∀ req result, Event.outbound req result ∈ (Start env sim).trace →
        req.Method = d.Protocol)
    ∧ (∀ newURL,
        resolveURL (env.urlParse d.Proxy.TargetURL) sim.Request.Clone.URL
          (runRequestHooks sim).req.URL = .ok newURL →
        (outboundRequests (Start env sim)).map (fun r => r.Method) = [d.Protocol]) := by
  constructor
  · intro req result h
    have hno := runRequestHooks_no_outbound sim req result
    unfold Start at h
    simp only [hd] at h
    split at h
    · exact absurd h hno
    · split at h
      · simp [hno] at h
        rw [h.1]
      · split at h
        · simp [hno] at h
          rw [h.1]
        · simp [hno] at h
          rw [h.1]
  · intro newURL hr
    rw [(Start_of_resolved env sim d newURL hd hr).1]
    rfl

theorem Start_outbound_method_witness :
    fullSim.Request.Method = "GET" ∧ (runRequestHooks fullSim).req.Method = "POST"
    ∧ Event.outbound barOutbound (.ok demoResponse) ∈ (Start demoEnv fullSim).trace
    ∧ barOutbound.Method = "https"
    ∧ (outboundRequests (Start demoEnv fullSim)).map (fun r => r.Method) = ["https"] :=
  ⟨rfl, rfl, by decide,
   (Start_outbound_method demoEnv fullSim demoDefinition rfl).1 barOutbound
     (.ok demoResponse) (by decide),
   (Start_outbound_method demoEnv fullSim demoDefinition rfl).2 _ rfl⟩

/-- C4: in a run whose outbound call succeeds, `Start` prints the banner and then the
rendered output (the re-indented body, or the raw body when re-indenting fails) byte for
byte when it has at most 1000 bytes, and otherwise its first 1000 bytes followed by the
trailer `startTrailer`; that trailer does not contain the number 1000: between
`trimmed at` and `bytes` stand the two bytes of U+03E8. -/
theorem Start_dump_cap (env : Env) (sim : TykSim) (req : Request) (res : Response)
    (h : Event.outbound req (.ok res) ∈ (Start env sim).trace) :
    printed (Start env sim)
        = [(banner,
            if (renderBody env res.Body).length ≤ 1000 then renderBody env res.Body
            else (renderBody env res.Body).take 1000 ++ startTrailer)]
      ∧ ¬ (goString "1000" <:+: startTrailer) := by
  refine ⟨?_, by decide⟩
  rw [printed_of_ok env sim req res h, dumpOutput, capOutput, stringOfInt_trim]
  by_cases hlen : (renderBody env res.Body).length ≤ 1000
  · have h1 : ¬ (renderBody env res.Body).length > trim := by unfold trim; omega
    rw [if_neg h1, if_pos hlen]
  · have h1 : (renderBody env res.Body).length > trim := by unfold trim; omega
    rw [if_pos h1, if_neg hlen]
    rfl

theorem Start_dump_cap_witness :
    Event.outbound demoOutbound (.ok bigResponse) ∈ (Start bigEnv demoSim).trace
    ∧ (renderBody bigEnv bigResponse.Body).length = 1001
    ∧ printed (Start bigEnv demoSim) = [(banner, List.replicate 1000 120 ++ startTrailer)]
    ∧ ¬ (goString "1000" <:+: startTrailer) :=
  have hmem : Event.outbound demoOutbound (.ok bigResponse) ∈ (Start bigEnv demoSim).trace :=
    List.mem_cons_self _ _
  have hrender : renderBody bigEnv bigResponse.Body = List.replicate 1001 120 := rfl
  have hlen : (renderBody bigEnv bigResponse.Body).length = 1001 := by
    rw [hrender, List.length_replicate]
  have hgt : ¬ (renderBody bigEnv bigResponse.Body).length ≤ 1000 := by
    rw [hlen]
    decide
  have htake : (List.replicate 1001 120).take 1000 = List.replicate 1000 120 := by
    rw [List.take_replicate]
    rfl
  ⟨hmem, hlen, by
    have := Start_dump_cap bigEnv demoSim demoOutbound bigResponse hmem
    rw [if_neg hgt, hrender, htake] at this
    exact this⟩

/-- C5: when marshaling succeeds with a non-empty result `b`, `LogAsJSON` makes exactly one
log call, whose first argument is the caller's label followed by a newline and whose
message is `b` when `b` has at most 300 bytes and otherwise the first 300 bytes of `b`
followed by the trailer that names 300. -/
theorem LogAsJSON_marshalled {V : Type}
    (marshalIndent : V → String → String → Bytes × Option String) (pfx : String) (v : V)
    (b : Bytes) (hm : marshalIndent v "" "  " = (b, none)) (hb : b ≠ []) :
    LogAsJSON marshalIndent pfx v
      = [[LogArg.str (pfx ++ "\n"),
          LogArg.bytes (if b.length ≤ 300 then b
                        else b.take 300 ++ goString "\n...(trimmed at 300 bytes)")]] := by
  have hpos : 0 < b.length := List.length_pos.mpr hb
  unfold LogAsJSON
  simp only [hm]
  by_cases hlen : b.length ≤ 300
  · have h1 : ¬ b.length > 300 := by omega
    simp [h1, hlen, hpos]
  · have h1 : b.length > 300 := by omega
    simp [h1, hlen, hb]

theorem LogAsJSON_marshalled_witness :
    (sevenMarshal () "" "  " = (goString "7", none) ∧ goString "7" ≠ []
      ∧ LogAsJSON sevenMarshal "value:" () = [[LogArg.str "value:\n", LogArg.bytes [55]]])
    ∧ ((longMarshal () "" "  ").1.length = 301
      ∧ LogAsJSON longMarshal "value:" ()
          = [[LogArg.str "value:\n",
              LogArg.bytes (List.replicate 300 120
                ++ goString "\n...(trimmed at 300 bytes)")]]) :=
  have hne : List.replicate 301 120 ≠ [] := by
    rw [Ne, List.replicate_eq_nil_iff]
    decide
  have hlen : ¬ (List.replicate 301 120).length ≤ 300 := by
    rw [List.length_replicate]
    decide
  have htake : (List.replicate 301 120).take 300 = List.replicate 300 120 := by
    rw [List.take_replicate]
    rfl
  ⟨⟨rfl, by decide,
    LogAsJSON_marshalled sevenMarshal "value:" () (goString "7") rfl (by decide)⟩,
   ⟨List.length_replicate _ _, by
    have := LogAsJSON_marshalled longMarshal "value:" () (List.replicate 301 120) rfl hne
    rw [if_neg hlen, htake] at this
    exact this⟩⟩

/-- C6: when marshaling fails, `LogAsJSON` makes two log calls, not one: the error notice
first, and then a second call; as the byte slice `json.MarshalIndent` returns with an
error is empty, that second call is the notice `Empty JSON`. -/
theorem LogAsJSON_marshal_error {V : Type}
    (marshalIndent : V → String → String → Bytes × Option String) (pfx : String) (v : V)
    (e : String) (hm : (marshalIndent v "" "  ").2 = some e) :
    (LogAsJSON marshalIndent pfx v).length = 2
    ∧ (LogAsJSON marshalIndent pfx v).head?
        = some [LogArg.str pfx, LogArg.str "Error marshalling JSON:", LogArg.err e]
    ∧ ((marshalIndent v "" "  ").1 = [] →
        LogAsJSON marshalIndent pfx v
          = [[LogArg.str pfx, LogArg.str "Error marshalling JSON:", LogArg.err e],
             [LogArg.str pfx, LogArg.str "Empty JSON"]]) := by
  unfold LogAsJSON
  simp only [hm]
  refine ⟨?_, ?_, ?_⟩
  · split <;> split <;> rfl
  · split <;> split <;> rfl
  · intro hb
    simp [hb]

theorem LogAsJSON_marshal_error_witness :
    failingMarshal () "" "  " = ([], some "json: unsupported type")
    ∧ (LogAsJSON failingMarshal "value:" ()).length = 2
    ∧ LogAsJSON failingMarshal "value:" ()
      = [[LogArg.str "value:", LogArg.str "Error marshalling JSON:",
          LogArg.err "json: unsupported type"],
         [LogArg.str "value:", LogArg.str "Empty JSON"]] :=
  ⟨rfl,
   (LogAsJSON_marshal_error failingMarshal "value:" () "json: unsupported type" rfl).1,
   (LogAsJSON_marshal_error failingMarshal "value:" () "json: unsupported type" rfl).2.2
     rfl⟩

/-- C7: the response handed to the Response hook is the field `sim.Response` as it was
when `Start` was called, not the response `client.Do` returned; for a simulation built
by `NewTykSim` that field is nil. -/
theorem Start_response_hook_argument (env : Env) (sim : TykSim) (slot : Slot)
    (rw : ResponseRecorder) (a : Option Response) (req : Request)
    (h : Event.responseHook slot rw a req ∈ (Start env sim).trace) :
    a = sim.Response ∧ slot = Slot.Response := by
  rcases Start_mem env sim _ h with ⟨_, _, _, he, _⟩ | ⟨_, _, he⟩ | ⟨_, _, he⟩ | ⟨_, _, he⟩
  · cases he
  · cases he
  · cases he
    exact ⟨rfl, rfl⟩
  · cases he

theorem Start_response_hook_argument_witness :
    NewTykSim demoLoadEnv "http://localhost/foo?x=1" "api.json" = .ok demoSim
    ∧ Event.outbound demoOutbound (.ok demoResponse) ∈ (Start demoEnv respSim).trace
    ∧ Event.responseHook .Response respSim.ResponseWriter none demoOutbound
        ∈ (Start demoEnv respSim).trace
    ∧ (none : Option Response) = respSim.Response :=
  ⟨rfl, by decide, by decide,
   (Start_response_hook_argument demoEnv respSim .Response respSim.ResponseWriter none
      demoOutbound (by decide)).1⟩

/-- C8: when the target URL of the definition does not parse, `Start` drops the parse
error.  If no hook changed the path or the query, `client.Do` is called on a request
whose URL is nil, and the run aborts only if that call returns an error; if a hook
changed the path or the query, the run aborts on a nil dereference (line 82 or 85)
before any call or dump. -/
theorem Start_target_unparsed (env : Env) (sim : TykSim) (d : APIDefinition) (o w : URL)
    (hd : (runRequestHooks sim).req.Definition = some d)
    (ht : env.urlParse d.Proxy.TargetURL = none)
    (ho : sim.Request.Clone.URL = some o)
    (hw : (runRequestHooks sim).req.URL = some w) :
    (o.Path = w.Path ∧ o.RawQuery = w.RawQuery →
      outboundRequests (Start env sim)
        = [{ (runRequestHooks sim).req with Method := d.Protocol, URL := none }]
      ∧ (Start env sim).abort
        = (match env.clientDo
              { (runRequestHooks sim).req with Method := d.Protocol, URL := none } with
           | .ok _ => none
           | .error msg => some (.clientError msg)))
    ∧ (o.Path ≠ w.Path →
      (Start env sim).abort = some (.nilDeref 82) ∧ outboundRequests (Start env sim) = []
        ∧ printed (Start env sim) = [])
    ∧ (o.Path = w.Path ∧ o.RawQuery ≠ w.RawQuery →
      (Start env sim).abort = some (.nilDeref 85) ∧ outboundRequests (Start env sim) = []
        ∧ printed (Start env sim) = []) := by
  have hr : resolveURL (env.urlParse d.Proxy.TargetURL) sim.Request.Clone.URL
      (runRequestHooks sim).req.URL
        = if o.Path ≠ w.Path then .error (.nilDeref 82)
          else if o.RawQuery ≠ w.RawQuery then .error (.nilDeref 85)
          else .ok none := by
    rw [ht, ho, hw]
    exact resolveURL_unparsed o w
  refine ⟨?_, ?_, ?_⟩
  · rintro ⟨hp, hq⟩
    rw [if_neg (not_not.mpr hp), if_neg (not_not.mpr hq)] at hr
    exact Start_of_resolved env sim d none hd hr
  · intro hp
    rw [if_pos hp] at hr
    exact Start_of_unresolved env sim d _ hd hr
  · rintro ⟨hp, hq⟩
    rw [if_neg (not_not.mpr hp), if_pos hq] at hr
    exact Start_of_unresolved env sim d _ hd hr

theorem Start_target_unparsed_witness :
    demoEnv.urlParse badDefinition.Proxy.TargetURL = none
    ∧ outboundRequests (Start demoEnv badSim)
        = [{ Method := "https", URL := none, Header := [], Definition := some badDefinition }]
    ∧ (Start demoEnv badSim).abort = some (.clientError "http: nil Request.URL") :=
  ⟨rfl,
   (Start_target_unparsed demoEnv badSim badDefinition inboundURL inboundURL
      rfl rfl rfl rfl).1 ⟨rfl, rfl⟩⟩

/-- C9: no run of `Start` invokes the `TykResponseMw` slot, populated or not: the number
of its invocations is zero. -/
theorem Start_TykResponseMw_invocations (env : Env) (sim : TykSim) :
    ((Start env sim).trace.map Event.label).count (Label.hook Slot.TykResponseMw) = 0 := by
  rw [List.count_eq_zero]
  intro hmem
  obtain ⟨e, he, hl⟩ := List.mem_map.mp hmem
  rcases Start_mem env sim e he with ⟨s, _, _, rfl, hs⟩ | ⟨_, _, rfl⟩ | ⟨_, _, rfl⟩ | ⟨_, _, rfl⟩
  · simp only [Event.label, Label.hook.injEq] at hl
    exact hs hl
  · cases hl
  · cases hl
  · cases hl

theorem Start_TykResponseMw_invocations_witness :
    fullSim.MiddlewareHooks.TykResponseMw.isSome = true
    ∧ Event.outbound barOutbound (.ok demoResponse) ∈ (Start demoEnv fullSim).trace
    ∧ ((Start demoEnv fullSim).trace.map Event.label).count (Label.hook Slot.TykResponseMw)
        = 0 :=
  ⟨rfl, by decide, Start_TykResponseMw_invocations demoEnv fullSim⟩

/-- C10: when re-indenting the response body fails, `Start` does not abort and prints
once: the banner, then the raw body, whole when it has at most 1000 bytes and otherwise
cut to its first 1000 bytes with the trailer appended. -/
theorem Start_indent_failure (env : Env) (sim : TykSim) (req : Request) (res : Response)
    (h : Event.outbound req (.ok res) ∈ (Start env sim).trace)
    (hfail : env.jsonIndent res.Body "" "\t" = none) :
    (Start env sim).abort = none
    ∧ printed (Start env sim)
        = [(goString "---- Response Body ----\n",
            if res.Body.length ≤ 1000 then res.Body
            else res.Body.take 1000 ++ startTrailer)] := by
  refine ⟨(Start_of_ok env sim req res h).1, ?_⟩
  rw [printed_of_ok env sim req res h]
  have hrender : renderBody env res.Body = res.Body := by
    unfold renderBody
    rw [hfail]
  rw [dumpOutput, capOutput, hrender, stringOfInt_trim]
  by_cases hlen : res.Body.length ≤ 1000
  · have h1 : ¬ res.Body.length > trim := by unfold trim; omega
    rw [if_neg h1, if_pos hlen]
    rfl
  · have h1 : res.Body.length > trim := by unfold trim; omega
    rw [if_pos h1, if_neg hlen]
    rfl

theorem Start_indent_failure_witness :
    invalidResponse.Body.length = 500
    ∧ invalidEnv.jsonIndent invalidResponse.Body "" "\t" = none
    ∧ (Start invalidEnv demoSim).abort = none
    ∧ printed (Start invalidEnv demoSim)
        = [(goString "---- Response Body ----\n", invalidResponse.Body)] :=
  have hmem :
      Event.outbound demoOutbound (.ok invalidResponse) ∈ (Start invalidEnv demoSim).trace :=
    List.mem_cons_self _ _
  have hlen : invalidResponse.Body.length = 500 := List.length_replicate _ _
  have hle : invalidResponse.Body.length ≤ 1000 := by
    rw [hlen]
    decide
  ⟨hlen, rfl, by
    have := Start_indent_failure invalidEnv demoSim demoOutbound invalidResponse hmem rfl
    rw [if_pos hle] at this
    exact this⟩

end Debug
